import Mathlib

/-!
Verification development for the AO3 terminal reader (`src/ao3_reader.py`).

The Python program parses HTML (via BeautifulSoup) into work records, rewrites
chapter markup into plain text, word-wraps and paginates it.  We shallowly
embed the relevant parts:

* HTML documents become the inductive `Node` tree; BeautifulSoup operations
  (`find`, `find_all`, `get`, `get_text`, class matching) become functions on
  `Node`.
* `parse_search_results` becomes `parse_search_results`, with the one fallible
  step of per-item extraction (the `title_link['href']` subscript, which raises
  `KeyError` when the attribute is missing) modelled in `Except`.
* The chapter-text rewrite pipeline of `read_work` becomes `reconstruct`.
* `textwrap.fill` (external library, modelled) becomes `fillLines`/`pyFill`.
* `format_content_for_pager` becomes `formatContentLines` (the produced string
  is the list of its lines; the Python builds the same lines joined by `"\n"`).
* `manual_pager` becomes `pagerIter`/`pagerRun`/`pagerTrace`.
* The interactive choice loop of `main` becomes `mainLoopStep`.
-/

/-- Split a character list at every character satisfying `p` (the separators
are dropped, empty fields kept) — the semantics of Python `str.split(sep)`
for a one-character separator. -/
def tokenSplit (p : Char → Bool) : List Char → List Char → List (List Char)
  | [], acc => [acc.reverse]
  | c :: cs, acc =>
    if p c then acc.reverse :: tokenSplit p cs [] else tokenSplit p cs (c :: acc)

/-- `String`-level `tokenSplit`. -/
def strSplit (s : String) (p : Char → Bool) : List String :=
  (tokenSplit p s.data []).map (fun cs => (⟨cs⟩ : String))

/-- Python `sep.join(xs)`. -/
def joinSep (sep : String) : List String → String
  | [] => ""
  | [x] => x
  | x :: y :: xs => x ++ sep ++ joinSep sep (y :: xs)

mutual
/-- An HTML node: either a text node or an element with a tag, attributes and
children.  Models the BeautifulSoup document tree.  (The children are a
mutually inductive list so that tree recursion is structural.) -/
inductive Node where
  | text (s : String)
  | elem (tag : String) (attrs : List (String × String)) (children : NodeList)

/-- The child list of an element node. -/
inductive NodeList where
  | nil
  | cons (hd : Node) (tl : NodeList)
end

/-- Build a child list from an ordinary list. -/
def nodesOf : List Node → NodeList
  | [] => .nil
  | n :: ns => .cons n (nodesOf ns)

namespace Node

/-- Attribute lookup (BeautifulSoup `tag.get(key)` with no default):
`none` on a text node or when the attribute is missing. -/
def attr? : Node → String → Option String
  | .text _, _ => none
  | .elem _ attrs _, k => (attrs.find? (fun kv => kv.1 = k)).map (fun kv => kv.2)

/-- Attribute lookup with a default (BeautifulSoup `tag.get(key, default)`). -/
def attrD (n : Node) (k d : String) : String :=
  (n.attr? k).getD d

/-- Does this node carry the given element tag? -/
def tagIs : Node → String → Bool
  | .text _, _ => false
  | .elem t _ _, t' => t = t'

/-- BeautifulSoup `class_=c` matching: the `class` attribute is multi-valued,
split on spaces, and matches when one token equals `c`. -/
def hasClass (n : Node) (c : String) : Bool :=
  match n.attr? "class" with
  | some v => (strSplit v (fun ch => ch = ' ')).contains c
  | none => false

/-- BeautifulSoup `rel='author'` matching: `rel` is multi-valued like `class`. -/
def relHas (n : Node) (r : String) : Bool :=
  match n.attr? "rel" with
  | some v => (strSplit v (fun ch => ch = ' ')).contains r
  | none => false

/-- All element descendants of the nodes of a child list, in document
(preorder) order.  Text nodes are not returned (BeautifulSoup tag searches
yield tags). -/
def elemDescsL : NodeList → List Node
  | .nil => []
  | .cons (.text _) cs => elemDescsL cs
  | .cons (.elem t a k) cs => .elem t a k :: (elemDescsL k ++ elemDescsL cs)

/-- All element descendants of a node, excluding the node itself
(BeautifulSoup `find_all` searches descendants). -/
def elemDescs : Node → List Node
  | .text _ => []
  | .elem _ _ k => elemDescsL k

/-- BeautifulSoup `find_all(pred)`: all matching element descendants in
document order. -/
def findAllP (n : Node) (p : Node → Bool) : List Node :=
  n.elemDescs.filter p

/-- BeautifulSoup `find(pred)`: the first matching element descendant. -/
def findP (n : Node) (p : Node → Bool) : Option Node :=
  (n.findAllP p).head?

mutual
/-- BeautifulSoup `get_text()`: concatenation of all text content in document
order. -/
def getText : Node → String
  | .text s => s
  | .elem _ _ cs => getTextL cs

/-- `getText` over a child list. -/
def getTextL : NodeList → String
  | .nil => ""
  | .cons c cs => getText c ++ getTextL cs
end

end Node

/-! ### Python string primitives -/

/-- Python `str.strip()`: drop whitespace from both ends. -/
def pyStrip (s : String) : String :=
  ⟨((s.data.dropWhile Char.isWhitespace).reverse.dropWhile Char.isWhitespace).reverse⟩

/-- Python `str.lower()` (ASCII case folding suffices for this program). -/
def pyLower (s : String) : String :=
  ⟨s.data.map Char.toLower⟩

/-- Python slicing `s[:n]`: the first `n` characters. -/
def pyTake (s : String) (n : Nat) : String :=
  ⟨s.data.take n⟩

/-- Modelled from `urllib.parse.urljoin`: resolution of a relative href
against the base URL.  The claims never inspect the joined URL, so the exact
resolution rule is abstracted to concatenation. -/
def pyUrljoin (base rel : String) : String :=
  base ++ rel

/-- The numeric value of a digit list, most significant first. -/
def digitsVal (ds : List Char) : Nat :=
  ds.foldl (fun n c => 10 * n + (c.toNat - 48)) 0

/-- Models Python `int(s)` on an already-stripped string: `some` of the parsed
integer, `none` when `int` would raise `ValueError` (empty string, stray
characters). -/
def pyInt? (s : String) : Option Int :=
  match s.data with
  | [] => none
  | '-' :: ds =>
    if ds ≠ [] ∧ ds.all Char.isDigit then some (-(digitsVal ds : Int)) else none
  | ds =>
    if ds.all Char.isDigit then some ((digitsVal ds : Int)) else none

/-! ### Work records (`parse_search_results`, src/ao3_reader.py lines 84-166) -/

/-- One search-result entry, with exactly the fields the Python dict carries. -/
structure WorkRecord where
  title : String
  authors : List String
  fandoms : List String
  rating : String
  warnings : List String
  kudos : String
  words : String
  chapters : String
  hits : String
  summary : String
  tags : List String
  url : String
deriving DecidableEq

/-- `heading.find_all('a', rel='author')` mapped to stripped text, with the
`["Unknown Author"]` fallback for an empty (falsy) list. -/
def authorsOf (heading : Node) : List String :=
  let links := heading.findAllP (fun n => n.tagIs "a" && n.relHas "author")
  if links.isEmpty then ["Unknown Author"]
  else links.map (fun a => pyStrip a.getText)

/-- `item.find('h5', class_='fandoms')` then all `a` descendants' stripped
text; `[]` when the `h5` is absent. -/
def fandomsOf (item : Node) : List String :=
  match item.findP (fun n => n.tagIs "h5" && n.hasClass "fandoms") with
  | some h5 => (h5.findAllP (fun n => n.tagIs "a")).map (fun a => pyStrip a.getText)
  | none => []

/-- Rating extraction: from the `ul.required-tags` block (if any), find
`span.rating` and read its `title` attribute with default `"Not Rated"`;
the rating also stays `"Not Rated"` when the block or span is missing. -/
def ratingFrom (requiredTags : Option Node) : String :=
  match requiredTags with
  | none => "Not Rated"
  | some rt =>
    match rt.findP (fun n => n.tagIs "span" && n.hasClass "rating") with
    | some sp => sp.attrD "title" "Not Rated"
    | none => "Not Rated"

/-- The value a single warning span contributes:
`w.get('title', '')` kept only `if w.get('title')` is truthy (present and
non-empty). -/
def warnVal (w : Node) : Option String :=
  match w.attr? "title" with
  | some t => if t = "" then none else some t
  | none => none

/-- Warning extraction: `[w.get('title', '') for w in warning_spans if
w.get('title')]` over `span.warnings` descendants of `ul.required-tags`. -/
def warningsFrom (requiredTags : Option Node) : List String :=
  match requiredTags with
  | none => []
  | some rt =>
    (rt.findAllP (fun n => n.tagIs "span" && n.hasClass "warnings")).filterMap warnVal

/-- One stat value: the stripped text of `stats.find('dd', class_=cls)`,
`"N/A"` when absent. -/
def statOf (stats : Option Node) (cls : String) : String :=
  match stats with
  | none => "N/A"
  | some st =>
    match st.findP (fun n => n.tagIs "dd" && n.hasClass cls) with
    | some dd => pyStrip dd.getText
    | none => "N/A"

/-- Summary extraction: `summary_block.get_text().strip()[:150] + "..."` when
the `blockquote.userstuff` block exists, else `""`.  The `"..."` is appended
unconditionally. -/
def summaryOf (block : Option Node) : String :=
  match block with
  | some b => pyTake (pyStrip b.getText) 150 ++ "..."
  | none => ""

/-- The locator of the summary block inside a work item. -/
def findSummaryBlock (item : Node) : Option Node :=
  item.findP (fun n => n.tagIs "blockquote" && n.hasClass "userstuff")

/-- Tag extraction: the first 5 `a.tag` links of `ul.tags`, stripped;
`[]` when the list is absent. -/
def tagsOf (item : Node) : List String :=
  match item.findP (fun n => n.tagIs "ul" && n.hasClass "tags") with
  | some tl =>
    ((tl.findAllP (fun n => n.tagIs "a" && n.hasClass "tag")).take 5).map
      (fun t => pyStrip t.getText)
  | none => []

/-- Per-item extraction (the body of the `for item in work_items` loop).
`none` models the `continue` taken when no `h4.heading` exists; inside the
`try` block the only raising step is `title_link['href']` (a `KeyError` when
the link has no `href`), modelled as `Except.error`. -/
def extractWorkItem (base : String) (item : Node) : Option (Except String WorkRecord) :=
  match item.findP (fun n => n.tagIs "h4" && n.hasClass "heading") with
  | none => none
  | some heading =>
    let titleLink := heading.findP (fun n => n.tagIs "a")
    let title := match titleLink with
      | some a => pyStrip a.getText
      | none => "Unknown Title"
    let urlE : Except String String := match titleLink with
      | some a =>
        match a.attr? "href" with
        | some h => .ok (pyUrljoin base h)
        | none => .error "KeyError: href"
      | none => .ok ""
    match urlE with
    | .error e => some (.error e)
    | .ok workUrl =>
      let requiredTags := item.findP (fun n => n.tagIs "ul" && n.hasClass "required-tags")
      let stats := item.findP (fun n => n.tagIs "dl" && n.hasClass "stats")
      some (.ok
        { title := title
          authors := authorsOf heading
          fandoms := fandomsOf item
          rating := ratingFrom requiredTags
          warnings := warningsFrom requiredTags
          kudos := statOf stats "kudos"
          words := statOf stats "words"
          chapters := statOf stats "chapters"
          hits := statOf stats "hits"
          summary := summaryOf (findSummaryBlock item)
          tags := tagsOf item
          url := workUrl })

/-- `soup.find_all('li', class_='work')`. -/
def workItems (doc : Node) : List Node :=
  doc.findAllP (fun n => n.tagIs "li" && n.hasClass "work")

/-- The `for item in work_items` loop of `parse_search_results`: append each
successfully extracted record to `works`; a missing heading (`continue`) or a
raised exception (`except Exception: continue`) skips the item. -/
def parseItems (base : String) (items : List Node) : List WorkRecord :=
  items.foldl
    (fun acc item =>
      match extractWorkItem base item with
      | some (.ok r) => acc ++ [r]
      | _ => acc)
    []

/-- `parse_search_results` (lines 84-166). -/
def parse_search_results (base : String) (doc : Node) : List WorkRecord :=
  parseItems base (workItems doc)

/-- The successfully extracted record of an item, if any. -/
def extractOk (base : String) (item : Node) : Option WorkRecord :=
  match extractWorkItem base item with
  | some (.ok r) => some r
  | _ => none

/-! ### Chapter text reconstruction (`read_work`, lines 343-361) -/

/-- Step 1: `for elem in chapter_content(['script', 'style']): elem.decompose()`
— remove every descendant `script`/`style` element with its subtree. -/
def stripScriptsL : NodeList → NodeList
  | .nil => .nil
  | .cons (.text s) cs => .cons (.text s) (stripScriptsL cs)
  | .cons (.elem t a k) cs =>
    if t = "script" ∨ t = "style" then stripScriptsL cs
    else .cons (.elem t a (stripScriptsL k)) (stripScriptsL cs)

/-- Step 2: `for p in chapter_content.find_all('p'): p.insert_after('\n\n')`
— a text node `"\n\n"` becomes the sibling right after every `p` element. -/
def insertPL : NodeList → NodeList
  | .nil => .nil
  | .cons (.text s) cs => .cons (.text s) (insertPL cs)
  | .cons (.elem t a k) cs =>
    if t = "p" then
      .cons (.elem t a (insertPL k)) (.cons (.text "\n\n") (insertPL cs))
    else .cons (.elem t a (insertPL k)) (insertPL cs)

/-- Step 3: `for br in chapter_content.find_all('br'): br.replace_with('\n')`. -/
def replBrL : NodeList → NodeList
  | .nil => .nil
  | .cons (.text s) cs => .cons (.text s) (replBrL cs)
  | .cons (.elem t a k) cs =>
    if t = "br" then .cons (.text "\n") (replBrL cs)
    else .cons (.elem t a (replBrL k)) (replBrL cs)

/-- The 40-dash horizontal-rule replacement text `'\n' + '-' * 40 + '\n'`. -/
def hrText : String :=
  "\n" ++ ⟨List.replicate 40 '-'⟩ ++ "\n"

/-- Step 4: `for hr in chapter_content.find_all('hr'): hr.replace_with(...)`. -/
def replHrL : NodeList → NodeList
  | .nil => .nil
  | .cons (.text s) cs => .cons (.text s) (replHrL cs)
  | .cons (.elem t a k) cs =>
    if t = "hr" then .cons (.text hrText) (replHrL cs)
    else .cons (.elem t a (replHrL k)) (replHrL cs)

/-- The whole rewrite pipeline of `read_work` applied to the children of the
content node, followed by step 5, `chapter_content.get_text()`. -/
def reconstruct : Node → String
  | .text s => s
  | .elem _ _ cs => Node.getTextL (replHrL (replBrL (insertPL (stripScriptsL cs))))

/-! ### Paragraph splitting (`format_content_for_pager`, lines 222-235) -/

/-- Index (from the front) of the last `'\n'` in a character list, if any. -/
def lastNl? (w : List Char) : Option Nat :=
  (w.reverse.findIdx? (fun c => c = '\n')).map (fun i => w.length - 1 - i)

/-- Splitting on the regex `\n\s*\n` (`re.split(r'\n\s*\n', text)`): a
separator is a `'\n'` followed by the longest whitespace prefix that still
ends in a `'\n'` (greedy `\s*` with backtracking into the final `\n`). -/
def goSplit (s : List Char) (acc : List Char) : List (List Char) :=
  match s with
  | [] => [acc.reverse]
  | c :: rest =>
    if c = '\n' then
      match lastNl? (rest.takeWhile Char.isWhitespace) with
      | some m => acc.reverse :: goSplit (rest.drop (m + 1)) []
      | none => goSplit rest (c :: acc)
    else goSplit rest (c :: acc)
termination_by s.length
decreasing_by
  · simp only [List.length_drop, List.length_cons]; omega
  · simp only [List.length_cons]; omega
  · simp only [List.length_cons]; omega

/-- `re.split(r'\n\s*\n', chapter_text.strip())`. -/
def paragraphsOf (chapterText : String) : List String :=
  (goSplit (pyStrip chapterText).data []).map (fun cs => ⟨cs⟩)

/-- The paragraphs the formatter actually emits (`if paragraph.strip():`). -/
def countParas (chapterText : String) : Nat :=
  ((paragraphsOf chapterText).filter (fun p => pyStrip p ≠ "")).length

/-- `' '.join(line.strip() for line in paragraph.split('\n') if line.strip())`
— collapse a paragraph's internal line structure to single spaces. -/
def paraJoin (p : String) : String :=
  joinSep " " (((strSplit p (fun c => c = '\n')).map pyStrip).filter (fun l => l ≠ ""))

/-! ### Word wrapping (modelled from Python `textwrap.fill`) -/

/-- Break one word into pieces of at most `wp + 1` characters (the
`break_long_words=True` behaviour of `textwrap`; the width is passed as its
predecessor so the chunk size is positive by construction). -/
def chunksOfPred (wp : Nat) (cs : List Char) : List (List Char) :=
  if cs.length ≤ wp + 1 then [cs]
  else cs.take (wp + 1) :: chunksOfPred wp (cs.drop (wp + 1))
termination_by cs.length
decreasing_by simp only [List.length_drop]; omega

/-- One step of the greedy fill over pieces: extend the current line while it
fits in `wp + 1` columns (words joined by single spaces), else flush it. -/
def greedyStep (wp : Nat) (st : List (List Char) × Option (List Char)) (word : List Char) :
    List (List Char) × Option (List Char) :=
  match st.2 with
  | none => (st.1, some word)
  | some cur =>
    if cur.length + 1 + word.length ≤ wp + 1 then (st.1, some (cur ++ ' ' :: word))
    else (st.1 ++ [cur], some word)

/-- Modelled from Python `textwrap.fill(text, width)` with its defaults
(whitespace normalised, words joined by single spaces, greedy filling,
over-long words broken): the list of output lines, for `width ≥ 1`. -/
def fillLines (width : Nat) (s : String) : List String :=
  let words := ((strSplit s Char.isWhitespace).filter (fun w => w ≠ "")).map String.data
  let pieces := words.flatMap (chunksOfPred (width - 1))
  let st := pieces.foldl (greedyStep (width - 1)) ([], none)
  (st.1 ++ st.2.toList).map (fun l => (⟨l⟩ : String))

/-- `textwrap.fill` itself: raises `ValueError` for a non-positive width. -/
def pyFill (width : Int) (s : String) : Except String String :=
  if width ≤ 0 then .error "ValueError: invalid width"
  else .ok (joinSep "\n" (fillLines width.toNat s))

/-! ### Terminal width resolution (`AO3Reader.__init__`, lines 29-36) -/

/-- `self.terminal_width`: the `columns` argument when truthy (present and
non-zero), else the detected terminal width (`none` models the `except`
branch), else 80.  No lower bound is applied anywhere. -/
def resolveTerminalWidth (columns detected : Option Int) : Int :=
  match columns with
  | some c => if c ≠ 0 then c else detected.getD 80
  | none => detected.getD 80

/-- The width handed to `textwrap.fill` for chapter body paragraphs
(`width=self.terminal_width-4`, line 234). -/
def effectiveBodyWidth (columns detected : Option Int) : Int :=
  resolveTerminalWidth columns detected - 4

/-! ### Chapter formatting (`format_content_for_pager`, lines 210-246).
The Python accumulates one string; each `def` below lists the lines of one of
its sections, the full output being the lines joined by newlines. -/

/-- `"=" * self.terminal_width`. -/
def sepLine (w : Nat) : String :=
  ⟨List.replicate w '='⟩

/-- The `"📖 Chapter {chapter} of {total_chapters}"` header line. -/
def chapterLine (chapter total : Nat) : String :=
  "📖 Chapter " ++ toString chapter ++ " of " ++ toString total

/-- Header block lines (lines 215-220): separator, title, author, the chapter
line only when `total_chapters > 1`, separator, blank line. -/
def headerLines (w : Nat) (title author : String) (chapter total : Nat) : List String :=
  [sepLine w, "📚 " ++ title, "✍️  By " ++ author]
    ++ (if total > 1 then [chapterLine chapter total] else [])
    ++ [sepLine w, ""]

/-- Body block lines (lines 222-235): each non-blank paragraph is collapsed,
wrapped to `w` columns, and followed by a blank line. -/
def bodyLines (w : Nat) (chapterText : String) : List String :=
  if chapterText = "" then []
  else
    (paragraphsOf chapterText).flatMap
      (fun p => if pyStrip p ≠ "" then fillLines w (paraJoin p) ++ [""] else [])

/-- `"📄 Use --chapter {chapter + 1} to read next chapter"`. -/
def nextHint (chapter : Nat) : String :=
  "📄 Use --chapter " ++ toString (chapter + 1) ++ " to read next chapter"

/-- `"📄 Use --chapter {chapter - 1} to read previous chapter"`. -/
def prevHint (chapter : Nat) : String :=
  "📄 Use --chapter " ++ toString (chapter - 1) ++ " to read previous chapter"

/-- Footer block lines (lines 238-244), present only when
`total_chapters > 1`: blank line, separator, the next-chapter hint only when
`chapter < total_chapters`, the previous-chapter hint only when
`chapter > 1`, separator. -/
def footerLines (w : Nat) (chapter total : Nat) : List String :=
  if total > 1 then
    ["", sepLine w]
      ++ (if chapter < total then [nextHint chapter] else [])
      ++ (if chapter > 1 then [prevHint chapter] else [])
      ++ [sepLine w]
  else []

/-- `format_content_for_pager` as the list of lines of its output string
(terminal width `w`, body wrap width `w - 4`). -/
def formatContentLines (w : Nat) (title author chapterText : String)
    (chapter total : Nat) : List String :=
  headerLines w title author chapter total
    ++ bodyLines (w - 4) chapterText
    ++ footerLines w chapter total

/-! ### Manual pager (`manual_pager`, lines 280-313) -/

/-- The three inputs the pager prompt distinguishes: `'q'`, `'b'`, anything
else (ENTER) advancing. -/
inductive PagerInput where
  | advance
  | back
  | quit
deriving DecidableEq

/-- Pager states: `viewing offset` (top of the while loop with
`current_line = offset`) or `ended` (loop exited). -/
inductive PagerState where
  | viewing (offset : Nat)
  | ended
deriving DecidableEq

/-- The slice `lines[current_line:end_line]` printed by one loop iteration. -/
def pageSlice (lines : List String) (cur endL : Nat) : List String :=
  (lines.drop cur).take (endL - cur)

/-- The pager prompt label for a non-final page, showing the 1-based line
range and the total. -/
def pagerPrompt (cur endL total : Nat) : String :=
  "[Line " ++ toString (cur + 1) ++ "-" ++ toString endL ++ " of " ++ toString total
    ++ " - Press ENTER for next page, b for back, q to quit]: "

/-- The end-of-content message. -/
def pagerEndMsg : String :=
  "[End of content - Press q to quit]"

/-- One iteration of the `while current_line < len(lines)` loop: the printed
slice, the prompt shown, and the state after consuming one input.  On the
final page (`end_line >= len(lines)`) the input is the single acknowledgment
and the loop breaks; otherwise `q` breaks, `b` retreats to
`max(0, current_line - terminal_height)`, ENTER advances to `end_line`. -/
def pagerIter (lines : List String) (height cur : Nat) (inp : PagerInput) :
    List String × String × PagerState :=
  let total := lines.length
  let endL := min (cur + height) total
  let body := pageSlice lines cur endL
  if total ≤ endL then (body, pagerEndMsg, .ended)
  else
    match inp with
    | .quit => (body, pagerPrompt cur endL total, .ended)
    | .back => (body, pagerPrompt cur endL total, .viewing (cur - height))
    | .advance => (body, pagerPrompt cur endL total, .viewing endL)

/-- The pager run: the sequence of emitted page slices together with the
inputs left unconsumed when the loop returns.  Each iteration prints first and
then consumes exactly one input (the acknowledgment, on the final page). -/
def pagerRun (lines : List String) (height : Nat) :
    Nat → List PagerInput → List (List String) × List PagerInput
  | cur, inputs =>
    if cur < lines.length then
      let endL := min (cur + height) lines.length
      if lines.length ≤ endL then ([pageSlice lines cur endL], inputs.drop 1)
      else
        match inputs with
        | [] => ([pageSlice lines cur endL], [])
        | i :: rest =>
          match (pagerIter lines height cur i).2.2 with
          | .viewing c =>
            let (es, leftover) := pagerRun lines height c rest
            (pageSlice lines cur endL :: es, leftover)
          | .ended => ([pageSlice lines cur endL], rest)
    else ([], inputs)
termination_by _ inputs => inputs.length
decreasing_by simp only [List.length_cons]; omega

/-- The offsets of all `viewing` states visited by a run (for the pager
invariant). -/
def pagerTrace (lines : List String) (height : Nat) :
    Nat → List PagerInput → List Nat
  | cur, [] => [cur]
  | cur, i :: rest =>
    if cur < lines.length then
      match (pagerIter lines height cur i).2.2 with
      | .viewing c => cur :: pagerTrace lines height c rest
      | .ended => [cur]
    else [cur]

/-! ### The interactive search-results loop (`main`, lines 433-455) -/

/-- What one iteration of the interactive `while True` loop does with the
entered line. -/
inductive LoopOutcome where
  | quits
  | nextPage
  | readWork (n : Nat)
  | hintAndContinue
  | breakOnError
deriving DecidableEq

/-- Does the outcome keep the input loop running?  Reading a work or printing
the range hint loops again; `q` and a caught `ValueError`/interrupt `break`. -/
def continuesLoop : LoopOutcome → Bool
  | .readWork _ => true
  | .nextPage => true
  | .hintAndContinue => true
  | .quits => false
  | .breakOnError => false

/-- One iteration of the interactive loop on the raw entered line:
`choice = input("> ").strip().lower()`; `'q'` quits, `'n'` fetches the next
page, otherwise `int(choice)` selects a work when in `1..numWorks`, prints the
range hint otherwise, and a `ValueError` from a non-numeric entry is caught
together with `KeyboardInterrupt` by a `break`. -/
def mainLoopStep (numWorks : Nat) (raw : String) : LoopOutcome :=
  let choice := pyLower (pyStrip raw)
  if choice = "q" then .quits
  else if choice = "n" then .nextPage
  else
    match pyInt? choice with
    | none => .breakOnError
    | some num =>
      if 1 ≤ num ∧ num ≤ (numWorks : Int) then .readWork num.toNat
      else .hintAndContinue

/-! ### Theorems -/

/-- The work-item fold equals `filterMap` of per-item extraction. -/
lemma foldl_extract_eq (base : String) (items : List Node) :
    ∀ acc : List WorkRecord,
      items.foldl
        (fun acc item =>
          match extractWorkItem base item with
          | some (.ok r) => acc ++ [r]
          | _ => acc) acc
      = acc ++ items.filterMap (extractOk base) := by
  induction items with
  | nil => intro acc; simp
  | cons it its ih =>
    intro acc
    simp only [List.foldl_cons, List.filterMap_cons]
    rw [ih]
    cases h : extractWorkItem base it with
    | none => simp [extractOk, h]
    | some e =>
      cases e with
      | error err => simp [extractOk, h]
      | ok r => simp [extractOk, h]

/-- C1: any exception raised while extracting a single work item is caught and
the item is skipped entirely — the parse result is exactly the `filterMap` of
per-item extraction, so a failing item contributes no (partial) record and
the remaining items are still parsed; and a page with zero matching `li.work`
items parses to the empty list. -/
theorem parse_per_item_failure_policy :
    (∀ (base : String) (doc : Node),
        workItems doc = [] → parse_search_results base doc = []) ∧
    (∀ (base : String) (doc : Node),
        parse_search_results base doc = (workItems doc).filterMap (extractOk base)) ∧
    (∀ (base : String) (pre post : List Node) (bad : Node) (e : String),
        extractWorkItem base bad = some (.error e) →
        parseItems base (pre ++ bad :: post) = parseItems base (pre ++ post)) := by
  refine ⟨?_, ?_, ?_⟩
  · intro base doc h
    simp [parse_search_results, parseItems, h]
  · intro base doc
    simp [parse_search_results, parseItems, foldl_extract_eq]
  · intro base pre post bad e h
    simp only [parseItems, foldl_extract_eq, List.nil_append,
      List.filterMap_append, List.filterMap_cons]
    have hb : extractOk base bad = none := by simp [extractOk, h]
    rw [hb]

/-- A page whose only content is text has no work items. -/
def noResultsDoc : Node := .elem "html" [] (nodesOf [.text "no results here"])

/-- A malformed work item: its title link has no `href`, so extraction raises
`KeyError`. -/
def badHrefItem : Node :=
  .elem "li" [("class", "work")]
    (nodesOf [.elem "h4" [("class", "heading")]
      (nodesOf [.elem "a" [] (nodesOf [.text "T"])])])

/-- A minimal well-formed work item (no title link at all, so no raise). -/
def minimalItem : Node :=
  .elem "li" [("class", "work")] (nodesOf [.elem "h4" [("class", "heading")] .nil])

theorem parse_per_item_failure_policy_witness :
    parse_search_results "https://archiveofourown.org" noResultsDoc = [] ∧
    parseItems "https://archiveofourown.org" [minimalItem, badHrefItem] =
      parseItems "https://archiveofourown.org" [minimalItem] :=
  ⟨parse_per_item_failure_policy.1 _ _ (by
      simp [workItems, noResultsDoc, Node.findAllP, Node.elemDescs, Node.elemDescsL]),
   parse_per_item_failure_policy.2.2 _ [minimalItem] [] badHrefItem
     "KeyError: href" (by
      simp [extractWorkItem, badHrefItem, Node.findP, Node.findAllP, Node.elemDescs,
        Node.elemDescsL, Node.tagIs, Node.hasClass, Node.attr?, strSplit, tokenSplit,
        List.filter])⟩

/-- Helper: a record successfully extracted from an item has the summary the
summary locator produces. -/
lemma extract_ok_summary (base : String) (item : Node) (r : WorkRecord)
    (h : extractOk base item = some r) :
    r.summary = summaryOf (findSummaryBlock item) := by
  unfold extractOk at h
  cases h0 : extractWorkItem base item with
  | none => rw [h0] at h; exact absurd h (by simp)
  | some e =>
    cases e with
    | error err => rw [h0] at h; exact absurd h (by simp)
    | ok r' =>
      rw [h0] at h
      simp only [Option.some.injEq] at h
      subst h
      unfold extractWorkItem at h0
      split at h0
      · exact absurd h0 (by simp)
      · simp only [] at h0
        split at h0
        · exact absurd h0 (by simp)
        · simp only [Option.some.injEq, Except.ok.injEq] at h0
          rw [← h0]

/-- C10: every successfully parsed record's summary is either empty (no
summary block) or the block's stripped text cut to 150 characters with
`"..."` appended unconditionally — hence of length at most 153 and ending in
`"..."`, even for short summaries such as `"Hi"`. -/
theorem summary_truncation_unconditional :
    (∀ b : Node, summaryOf (some b) = pyTake (pyStrip b.getText) 150 ++ "...") ∧
    (∀ block : Option Node,
        summaryOf block = "" ∨
          ((summaryOf block).length ≤ 153 ∧
            (summaryOf block).data.reverse.take 3 = ['.', '.', '.'])) ∧
    (∀ (base : String) (item : Node) (r : WorkRecord),
        extractOk base item = some r →
        r.summary = summaryOf (findSummaryBlock item)) ∧
    summaryOf (some (.elem "blockquote" [("class", "userstuff")]
      (nodesOf [.text "Hi"])))
      = "Hi..." := by
  refine ⟨fun b => rfl, ?_, extract_ok_summary, ?_⟩
  · intro block
    cases block with
    | none => left; rfl
    | some b =>
      right
      constructor
      · show (pyTake (pyStrip b.getText) 150 ++ "...").length ≤ 153
        rw [String.length_append]
        have h1 : (pyTake (pyStrip b.getText) 150).length ≤ 150 := by
          show (List.take 150 _).length ≤ 150
          simp [List.length_take]
        have h2 : ("..." : String).length = 3 := rfl
        omega
      · show ((pyTake (pyStrip b.getText) 150) ++ "...").data.reverse.take 3 = _
        rw [String.data_append, List.reverse_append, List.take_append_eq_append_take]
        norm_num
  · rfl

/-- A work item carrying a short summary block. -/
def summaryItem : Node :=
  .elem "li" [("class", "work")]
    (nodesOf [.elem "h4" [("class", "heading")] .nil,
     .elem "blockquote" [("class", "userstuff")] (nodesOf [.text "Hi"])])

/-- The record `summaryItem` extracts to. -/
def summaryItemRecord : WorkRecord :=
  { title := "Unknown Title", authors := ["Unknown Author"], fandoms := [],
    rating := "Not Rated", warnings := [], kudos := "N/A", words := "N/A",
    chapters := "N/A", hits := "N/A", summary := "Hi...", tags := [], url := "" }

theorem summary_truncation_unconditional_witness :
    summaryItemRecord.summary = summaryOf (findSummaryBlock summaryItem) :=
  summary_truncation_unconditional.2.2.1 "https://archiveofourown.org" summaryItem
    summaryItemRecord (by
      simp [extractOk, extractWorkItem, summaryItem, summaryItemRecord, workItems,
        Node.findP, Node.findAllP, Node.elemDescs, Node.elemDescsL, Node.tagIs,
        Node.hasClass, Node.relHas, Node.attr?, strSplit, tokenSplit, List.filter,
        authorsOf, fandomsOf, ratingFrom, warningsFrom, statOf, summaryOf,
        findSummaryBlock, tagsOf, Node.getText, Node.getTextL, pyStrip, pyTake,
        Char.isWhitespace])

/-- A work item whose `required-tags` block has a rating span carrying no
`title` attribute. -/
def noTitleRatingItem : Node :=
  .elem "li" [("class", "work")]
    (nodesOf [.elem "h4" [("class", "heading")] .nil,
     .elem "ul" [("class", "required-tags")]
       (nodesOf [.elem "span" [("class", "rating")] .nil])])

/-- C8 counterexample: with the rating span present but its `title` attribute
absent, the extracted record's rating is `"Not Rated"`, not the empty string
the claim asserts as fallback. -/
theorem rating_fallback_not_empty_cex :
    ((extractOk "https://archiveofourown.org" noTitleRatingItem).map
        WorkRecord.rating) = some "Not Rated" ∧
    ((extractOk "https://archiveofourown.org" noTitleRatingItem).map
        WorkRecord.rating) ≠ some "" := by
  have h : (extractOk "https://archiveofourown.org" noTitleRatingItem).map
      WorkRecord.rating = some "Not Rated" := by
    simp [extractOk, extractWorkItem, noTitleRatingItem, Node.findP, Node.findAllP,
      Node.elemDescs, Node.elemDescsL, Node.tagIs, Node.hasClass, Node.relHas,
      Node.attr?, Node.attrD, strSplit, tokenSplit, List.filter, authorsOf,
      fandomsOf, ratingFrom, warningsFrom, statOf, summaryOf, findSummaryBlock,
      tagsOf]
  exact ⟨h, by rw [h]; decide⟩

/-- C8 (amended): when the matched node exists but the `title` attribute is
absent, the rating falls back to `"Not Rated"` (not the empty string), while
a warning span's extracted value falls back to the empty string and the
warning is then dropped from the list by the truthiness filter. -/
theorem attr_absent_fallbacks :
    (∀ rt sp : Node,
        rt.findP (fun n => n.tagIs "span" && n.hasClass "rating") = some sp →
        sp.attr? "title" = none →
        ratingFrom (some rt) = "Not Rated") ∧
    (∀ w : Node,
        w.attr? "title" = none →
        w.attrD "title" "" = "" ∧ warnVal w = none) ∧
    (∀ rt : Node,
        warningsFrom (some rt) =
          (rt.findAllP (fun n => n.tagIs "span" && n.hasClass "warnings")).filterMap
            warnVal) := by
  refine ⟨?_, ?_, fun rt => rfl⟩
  · intro rt sp h1 h2
    simp [ratingFrom, h1, Node.attrD, h2]
  · intro w h
    simp [Node.attrD, warnVal, h]

theorem attr_absent_fallbacks_witness :
    ratingFrom (some (.elem "ul" [("class", "required-tags")]
        (nodesOf [.elem "span" [("class", "rating")] .nil]))) = "Not Rated" ∧
    warnVal (.elem "span" [("class", "warnings")] .nil) = none :=
  ⟨attr_absent_fallbacks.1 _ (.elem "span" [("class", "rating")] .nil)
      (by
        simp [Node.findP, Node.findAllP, Node.elemDescs, Node.elemDescsL,
          Node.tagIs, Node.hasClass, Node.attr?, strSplit, tokenSplit, List.filter])
      (by simp [Node.attr?]),
   (attr_absent_fallbacks.2.1 _ (by simp [Node.attr?])).2⟩

/-- C7 counterexample: a non-numeric entry at the results prompt raises
`ValueError`, which the `except (ValueError, KeyboardInterrupt)` handler turns
into a `break` — the loop terminates with no hint instead of continuing. -/
theorem nonnumeric_input_breaks_cex :
    mainLoopStep 3 "x" = .breakOnError ∧
    continuesLoop (mainLoopStep 3 "x") = false := by
  have h : mainLoopStep 3 "x" = .breakOnError := by
    simp [mainLoopStep, pyLower, pyStrip, pyInt?]
  exact ⟨h, by rw [h]; rfl⟩

/-- C7 (amended): an out-of-range numeric choice is reported with the range
hint and the loop continues; a non-numeric entry other than `q`/`n` raises
`ValueError`, which is caught and terminates the loop (like quit), with no
hint. -/
theorem input_loop_error_policy :
    (∀ (numWorks : Nat) (raw : String) (num : Int),
        pyLower (pyStrip raw) ≠ "q" →
        pyLower (pyStrip raw) ≠ "n" →
        pyInt? (pyLower (pyStrip raw)) = some num →
        ¬(1 ≤ num ∧ num ≤ (numWorks : Int)) →
        mainLoopStep numWorks raw = .hintAndContinue ∧
          continuesLoop (mainLoopStep numWorks raw) = true) ∧
    (∀ (numWorks : Nat) (raw : String),
        pyLower (pyStrip raw) ≠ "q" →
        pyLower (pyStrip raw) ≠ "n" →
        pyInt? (pyLower (pyStrip raw)) = none →
        mainLoopStep numWorks raw = .breakOnError ∧
          continuesLoop (mainLoopStep numWorks raw) = false) := by
  constructor
  · intro n raw num hq hn hsome hrange
    have h : mainLoopStep n raw = .hintAndContinue := by
      simp [mainLoopStep, hq, hn, hsome, hrange]
    exact ⟨h, by rw [h]; rfl⟩
  · intro n raw hq hn hnone
    have h : mainLoopStep n raw = .breakOnError := by
      simp [mainLoopStep, hq, hn, hnone]
    exact ⟨h, by rw [h]; rfl⟩

theorem input_loop_error_policy_witness :
    (mainLoopStep 3 "7" = .hintAndContinue ∧
      continuesLoop (mainLoopStep 3 "7") = true) ∧
    (mainLoopStep 3 "hello" = .breakOnError ∧
      continuesLoop (mainLoopStep 3 "hello") = false) :=
  ⟨input_loop_error_policy.1 3 "7" 7 (by decide) (by decide)
      (by simp [pyLower, pyStrip, pyInt?, digitsVal]) (by decide),
   input_loop_error_policy.2 3 "hello" (by decide) (by decide)
      (by simp [pyLower, pyStrip, pyInt?])⟩

/-- C4 counterexample: with `--columns 3` the effective wrap width used for
chapter paragraphs is `3 - 4 = -1` — there is no lower clamp, the claimed
"sane positive minimum" does not exist, and `textwrap.fill` would raise. -/
theorem wrap_width_no_minimum_cex :
    effectiveBodyWidth (some 3) (some 200) = -1 ∧
    ¬(1 ≤ effectiveBodyWidth (some 3) (some 200)) ∧
    (pyFill (effectiveBodyWidth (some 3) (some 200)) "hello").toOption = none := by
  refine ⟨by decide, by decide, ?_⟩
  have h : effectiveBodyWidth (some 3) (some 200) = -1 := by decide
  rw [h]
  rfl

/-- Every piece a word is broken into has at most `wp + 1` characters. -/
lemma chunksOfPred_le (wp : Nat) :
    ∀ (cs : List Char), ∀ piece ∈ chunksOfPred wp cs, piece.length ≤ wp + 1 := by
  have H : ∀ (n : Nat) (cs : List Char), cs.length = n →
      ∀ piece ∈ chunksOfPred wp cs, piece.length ≤ wp + 1 := by
    intro n
    induction n using Nat.strong_induction_on with
    | _ n ih =>
      intro cs hlen piece hp
      rw [chunksOfPred] at hp
      split at hp
      · simp only [List.mem_singleton] at hp
        subst hp
        rename_i hshort
        omega
      · rename_i hlong
        rcases List.mem_cons.1 hp with h | h
        · subst h
          simp [List.length_take]
        · refine ih (cs.drop (wp + 1)).length ?_ _ rfl piece h
          simp only [List.length_drop]
          omega
  exact fun cs => H cs.length cs rfl

/-- The greedy fold keeps every flushed line and the current line within
`wp + 1` characters, provided every incoming piece fits. -/
lemma greedy_foldl_le (wp : Nat) :
    ∀ (pieces : List (List Char)) (st : List (List Char) × Option (List Char)),
      (∀ l ∈ st.1, l.length ≤ wp + 1) →
      (∀ c, st.2 = some c → c.length ≤ wp + 1) →
      (∀ p ∈ pieces, p.length ≤ wp + 1) →
      (∀ l ∈ (pieces.foldl (greedyStep wp) st).1, l.length ≤ wp + 1) ∧
      (∀ c, (pieces.foldl (greedyStep wp) st).2 = some c → c.length ≤ wp + 1) := by
  intro pieces
  induction pieces with
  | nil => intro st h1 h2 _; exact ⟨h1, h2⟩
  | cons p ps ih =>
    intro st h1 h2 h3
    simp only [List.foldl_cons]
    have hp : p.length ≤ wp + 1 := h3 p (by simp)
    have hps : ∀ q ∈ ps, q.length ≤ wp + 1 := fun q hq => h3 q (by simp [hq])
    cases hcur : st.2 with
    | none =>
      have hstep : greedyStep wp st p = (st.1, some p) := by
        simp only [greedyStep, hcur]
      rw [hstep]
      refine ih (st.1, some p) h1 ?_ hps
      intro c hcc
      simp only [Option.some.injEq] at hcc
      subst hcc
      exact hp
    | some cur =>
      have hc0 : cur.length ≤ wp + 1 := h2 cur hcur
      by_cases hfit : cur.length + 1 + p.length ≤ wp + 1
      · have hstep : greedyStep wp st p = (st.1, some (cur ++ ' ' :: p)) := by
          simp only [greedyStep, hcur, if_pos hfit]
        rw [hstep]
        refine ih _ h1 ?_ hps
        intro c hcc
        simp only [Option.some.injEq] at hcc
        subst hcc
        simp only [List.length_append, List.length_cons]
        omega
      · have hstep : greedyStep wp st p = (st.1 ++ [cur], some p) := by
          simp only [greedyStep, hcur, if_neg hfit]
        rw [hstep]
        refine ih _ ?_ ?_ hps
        · intro l hl
          rcases List.mem_append.1 hl with hl | hl
          · exact h1 l hl
          · simp only [List.mem_singleton] at hl
            subst hl
            exact hc0
        · intro c hcc
          simp only [Option.some.injEq] at hcc
          subst hcc
          exact hp

/-- All lines assembled by the greedy fold from fitting pieces fit. -/
lemma greedy_lines_le (wp : Nat) (pieces : List (List Char))
    (hp : ∀ p ∈ pieces, p.length ≤ wp + 1) :
    ∀ l ∈ (pieces.foldl (greedyStep wp) ([], none)).1 ++
        (pieces.foldl (greedyStep wp) ([], none)).2.toList, l.length ≤ wp + 1 := by
  have hinv := greedy_foldl_le wp pieces ([], none) (by simp) (by simp) hp
  intro l hl
  rcases List.mem_append.1 hl with h | h
  · exact hinv.1 l h
  · cases hc : (pieces.foldl (greedyStep wp) ([], none)).2 with
    | none => rw [hc] at h; exact absurd h (by simp)
    | some c =>
      rw [hc] at h
      simp only [Option.toList_some, List.mem_singleton] at h
      subst h
      exact hinv.2 _ hc

/-- Every line produced by the wrapping model fits in `w` columns. -/
lemma fillLines_le (w : Nat) (hw : 1 ≤ w) (s : String) :
    ∀ line ∈ fillLines w s, line.length ≤ w := by
  intro line hline
  have hw1 : w - 1 + 1 = w := by omega
  unfold fillLines at hline
  simp only [List.mem_map] at hline
  obtain ⟨l, hl, rfl⟩ := hline
  have hb := greedy_lines_le (w - 1) _ (fun p hp => by
      rw [List.mem_flatMap] at hp
      obtain ⟨word, _, hpc⟩ := hp
      exact chunksOfPred_le (w - 1) word p hpc) l hl
  show l.length ≤ w
  omega

/-- C4 (amended): the code applies no lower clamp to the wrap width (see the
counterexample), but for every effective wrap width at or above the minimum —
in particular for every terminal width of at least 24, giving a body wrap
width of at least 20 — no wrapped chapter-body line is longer than the wrap
width. -/
theorem chapter_wrap_width_bound :
    (∀ (w : Nat) (s : String), 1 ≤ w → ∀ line ∈ fillLines w s, line.length ≤ w) ∧
    (∀ (W : Nat) (chapterText : String), 24 ≤ W →
        ∀ line ∈ bodyLines (W - 4) chapterText, line.length ≤ W - 4) ∧
    (∀ W : Nat, 24 ≤ W → 20 ≤ W - 4) := by
  refine ⟨fun w s hw => fillLines_le w hw s, ?_, fun W hW => by omega⟩
  intro W text hW line hline
  unfold bodyLines at hline
  split at hline
  · exact absurd hline (by simp)
  · rw [List.mem_flatMap] at hline
    obtain ⟨p, _, hmem⟩ := hline
    split at hmem
    · rcases List.mem_append.1 hmem with h | h
      · exact fillLines_le (W - 4) (by omega) (paraJoin p) line h
      · simp only [List.mem_singleton] at h
        subst h
        show (0 : Nat) ≤ W - 4
        omega
    · exact absurd hmem (by simp)

theorem chapter_wrap_width_bound_witness :
    (24 : Nat) ≤ 80 ∧
    (∀ line ∈ bodyLines (80 - 4) "hello world\n\nsecond paragraph here",
      line.length ≤ 80 - 4) :=
  ⟨by decide,
   chapter_wrap_width_bound.2.1 80 "hello world\n\nsecond paragraph here" (by decide)⟩

/-- The rewrite pipeline turns a pure paragraph list into texts each followed
by a literal blank line. -/
lemma pipeline_paragraphs (ts : List String) :
    Node.getTextL (replHrL (replBrL (insertPL (stripScriptsL
        (nodesOf (ts.map (fun t =>
          Node.elem "p" [] (nodesOf [Node.text t])))))))) =
      ts.foldr (fun t acc => t ++ ("\n\n" ++ acc)) "" := by
  induction ts with
  | nil =>
    simp [stripScriptsL, insertPL, replBrL, replHrL, Node.getTextL]
  | cons t ts ih =>
    simp only [List.map_cons, stripScriptsL, insertPL, replBrL, replHrL,
      Node.getTextL, Node.getText, List.foldr_cons, ih, String.reduceEq,
      or_self, if_false, if_true, reduceIte]
    simp [String.append_assoc, String.append_empty]

/-- C2: the chapter-text reconstruction removes script/style subtrees first,
injects a double line-break after every paragraph node, turns line breaks
into newlines and horizontal rules into a newline, 40 dashes and a newline,
and only then flattens — so a document of paragraph nodes flattens to the
paragraph texts each terminated by a literal blank line. -/
theorem chapter_rewrite_pipeline :
    (∀ ts : List String,
        reconstruct (Node.elem "div" []
            (nodesOf (ts.map (fun t =>
              Node.elem "p" [] (nodesOf [Node.text t]))))) =
          ts.foldr (fun t acc => t ++ ("\n\n" ++ acc)) "") ∧
    (∀ (a : List (String × String)) (cs rest : NodeList),
        reconstruct (Node.elem "div" [] (.cons (Node.elem "script" a cs) rest)) =
          reconstruct (Node.elem "div" [] rest) ∧
        reconstruct (Node.elem "div" [] (.cons (Node.elem "style" a cs) rest)) =
          reconstruct (Node.elem "div" [] rest)) ∧
    (∀ s1 s2 : String,
        reconstruct (Node.elem "div" []
            (nodesOf [Node.elem "p" []
              (nodesOf [Node.text s1, Node.elem "br" [] .nil, Node.text s2])])) =
          s1 ++ ("\n" ++ (s2 ++ "\n\n"))) ∧
    reconstruct (Node.elem "div" [] (nodesOf [Node.elem "hr" [] .nil])) = hrText ∧
    reconstruct (Node.elem "div" []
        (nodesOf [Node.elem "script" []
          (nodesOf [Node.elem "p" [] (nodesOf [Node.text "x"])])])) = "" := by
  refine ⟨?_, ?_, ?_, ?_, ?_⟩
  · intro ts
    simp only [reconstruct]
    exact pipeline_paragraphs ts
  · intro a cs rest
    constructor <;> simp [reconstruct, stripScriptsL]
  · intro s1 s2
    simp [reconstruct, stripScriptsL, insertPL, replBrL, replHrL,
      Node.getTextL, Node.getText, String.append_assoc, String.append_empty]
  · simp [reconstruct, stripScriptsL, insertPL, replBrL, replHrL,
      Node.getTextL, Node.getText, String.append_empty]
  · simp [reconstruct, stripScriptsL, insertPL, replBrL, replHrL, Node.getTextL]

/-- C9: reconstruction is the identity on already-flattened plain text (a
content node with a single text child and no markup), so the number of
blank-line-separated paragraphs is unchanged by the round trip. -/
theorem reconstruct_plain_text_idempotent :
    ∀ s : String,
      reconstruct (Node.elem "div" [] (nodesOf [Node.text s])) = s ∧
      countParas (reconstruct (Node.elem "div" [] (nodesOf [Node.text s]))) =
        countParas s := by
  intro s
  have h : reconstruct (Node.elem "div" [] (nodesOf [Node.text s])) = s := by
    simp [reconstruct, stripScriptsL, insertPL, replBrL, replHrL,
      Node.getTextL, Node.getText, String.append_empty]
  exact ⟨h, by rw [h]⟩

/-- C3: one pager-loop iteration with `offset + pageSize < total` emits
exactly `lines[offset : offset + pageSize]` labeled with the 1-based range
and total and advances to `Viewing (offset + pageSize)`; with
`offset + pageSize >= total` it emits the final partial page and ends,
consuming one acknowledgment input; for a 50-line buffer and page size 20
three advances emit lines 1-20, 21-40 and 41-50. -/
theorem manual_pager_state_machine :
    (∀ (lines : List String) (height cur : Nat),
        cur + height < lines.length →
        pagerIter lines height cur .advance =
          (pageSlice lines cur (cur + height),
           pagerPrompt cur (cur + height) lines.length,
           .viewing (cur + height))) ∧
    (∀ (lines : List String) (height cur : Nat) (inp : PagerInput),
        cur < lines.length → lines.length ≤ cur + height →
        pagerIter lines height cur inp =
          (pageSlice lines cur lines.length, pagerEndMsg, .ended)) ∧
    (∀ lines : List String, lines.length = 50 →
        (pagerRun lines 20 0 [.advance, .advance, .advance]).1 =
            [pageSlice lines 0 20, pageSlice lines 20 40, pageSlice lines 40 50] ∧
          (pagerRun lines 20 0 [.advance, .advance, .advance]).2 = [] ∧
          (pagerIter lines 20 40 .advance).2.2 = .ended) := by
  refine ⟨?_, ?_, ?_⟩
  · intro lines height cur h
    simp only [pagerIter]
    rw [Nat.min_eq_left (Nat.le_of_lt h), if_neg (by omega)]
  · intro lines height cur inp h1 h2
    simp only [pagerIter]
    rw [Nat.min_eq_right h2, if_pos (Nat.le_refl _)]
  · intro lines h
    refine ⟨?_, ?_, ?_⟩
    · rw [pagerRun]
      rw [if_pos (by omega), h]
      norm_num
      rw [pagerIter]
      simp only [h]
      norm_num
      rw [pagerRun]
      rw [if_pos (by omega), h]
      norm_num
      rw [pagerIter]
      simp only [h]
      norm_num
      rw [pagerRun]
      rw [if_pos (by omega), h]
      norm_num
    · rw [pagerRun]
      rw [if_pos (by omega), h]
      norm_num
      rw [pagerIter]
      simp only [h]
      norm_num
      rw [pagerRun]
      rw [if_pos (by omega), h]
      norm_num
      rw [pagerIter]
      simp only [h]
      norm_num
      rw [pagerRun]
      rw [if_pos (by omega), h]
      norm_num
    · rw [pagerIter]
      simp only [h]
      norm_num

theorem manual_pager_state_machine_witness :
    pagerIter (List.replicate 50 "ln") 20 0 .advance =
      (pageSlice (List.replicate 50 "ln") 0 20,
       pagerPrompt 0 20 (List.replicate 50 "ln").length,
       .viewing 20) ∧
    (pagerRun (List.replicate 50 "ln") 20 0 [.advance, .advance, .advance]).1 =
      [pageSlice (List.replicate 50 "ln") 0 20,
       pageSlice (List.replicate 50 "ln") 20 40,
       pageSlice (List.replicate 50 "ln") 40 50] :=
  ⟨manual_pager_state_machine.1 _ 20 0 (by simp),
   (manual_pager_state_machine.2.2 _ (by simp)).1⟩

/-- A `viewing` state reached by one pager iteration keeps the offset within
the total, provided the current offset is. -/
lemma pagerIter_viewing_le (lines : List String) (height cur : Nat)
    (i : PagerInput) (c : Nat) (hcur : cur ≤ lines.length)
    (h : (pagerIter lines height cur i).2.2 = .viewing c) : c ≤ lines.length := by
  simp only [pagerIter] at h
  split at h
  · simp at h
  · cases i with
    | quit => simp at h
    | back =>
      simp only [PagerState.viewing.injEq] at h
      omega
    | advance =>
      simp only [PagerState.viewing.injEq] at h
      have := Nat.min_le_right (cur + height) lines.length
      omega

/-- Every offset visited by a pager run stays within the total. -/
lemma pagerTrace_le (lines : List String) (height : Nat) :
    ∀ (inputs : List PagerInput) (cur : Nat), cur ≤ lines.length →
      ∀ o ∈ pagerTrace lines height cur inputs, o ≤ lines.length := by
  intro inputs
  induction inputs with
  | nil =>
    intro cur h o ho
    simp only [pagerTrace, List.mem_singleton] at ho
    omega
  | cons i rest ih =>
    intro cur h o ho
    simp only [pagerTrace] at ho
    split at ho
    · split at ho
      · rename_i c heq
        rcases List.mem_cons.1 ho with rfl | ho
        · exact h
        · exact ih c (pagerIter_viewing_le lines height cur i c h heq) o ho
      · simp only [List.mem_singleton] at ho
        omega
    · simp only [List.mem_singleton] at ho
      omega

/-- C5: the pager offset always satisfies `0 ≤ offset ≤ total`: an advance
sets it to `min(offset + pageSize, total)`, a back sets it to
`max(0, offset - pageSize)` (truncated subtraction), every visited offset is
within bounds, and a back on the first page leaves the offset at 0. -/
theorem pager_offset_invariant :
    (∀ (lines : List String) (height cur : Nat),
        cur + height < lines.length →
        (pagerIter lines height cur .advance).2.2 =
          .viewing (min (cur + height) lines.length)) ∧
    (∀ (lines : List String) (height cur : Nat),
        cur + height < lines.length →
        (pagerIter lines height cur .back).2.2 = .viewing (cur - height) ∧
        ((cur - height : Nat) : Int) = max 0 ((cur : Int) - (height : Int))) ∧
    (∀ (lines : List String) (height : Nat) (inputs : List PagerInput) (cur : Nat),
        cur ≤ lines.length →
        ∀ o ∈ pagerTrace lines height cur inputs,
          0 ≤ (o : Int) ∧ o ≤ lines.length) ∧
    (∀ (lines : List String) (height : Nat),
        height < lines.length →
        (pagerIter lines height 0 .back).2.2 = .viewing 0) := by
  refine ⟨?_, ?_, ?_, ?_⟩
  · intro lines height cur h
    simp only [pagerIter]
    rw [if_neg (by omega)]
  · intro lines height cur h
    refine ⟨?_, by omega⟩
    simp only [pagerIter]
    rw [if_neg (by omega)]
  · intro lines height inputs cur h o ho
    exact ⟨Int.ofNat_nonneg o, pagerTrace_le lines height inputs cur h o ho⟩
  · intro lines height h
    simp only [pagerIter]
    rw [if_neg (by omega)]
    simp

theorem pager_offset_invariant_witness :
    (pagerIter (List.replicate 50 "ln") 20 0 .advance).2.2 =
      .viewing (min (0 + 20) (List.replicate 50 "ln").length) ∧
    (pagerIter (List.replicate 50 "ln") 20 25 .back).2.2 = .viewing (25 - 20) ∧
    (pagerIter (List.replicate 50 "ln") 20 0 .back).2.2 = .viewing 0 ∧
    (∀ o ∈ pagerTrace (List.replicate 50 "ln") 20 0 [.advance, .back, .advance],
      0 ≤ (o : Int) ∧ o ≤ (List.replicate 50 "ln").length) :=
  ⟨pager_offset_invariant.1 _ 20 0 (by simp),
   (pager_offset_invariant.2.1 _ 20 25 (by simp)).1,
   pager_offset_invariant.2.2.2 _ 20 (by simp),
   pager_offset_invariant.2.2.1 _ 20 [.advance, .back, .advance] 0 (by simp)⟩

/-- Unequal one-character prefixes make strings unequal. -/
lemma ne_of_data_take_one (s t : String) (h : s.data.take 1 ≠ t.data.take 1) :
    s ≠ t :=
  fun e => h (by rw [e])

lemma chapterLine_take_one (c t : Nat) : (chapterLine c t).data.take 1 = ['📖'] := by
  unfold chapterLine
  rw [String.data_append, String.data_append, String.data_append,
    List.append_assoc, List.append_assoc]
  rfl

lemma nextHint_take_one (c : Nat) : (nextHint c).data.take 1 = ['📄'] := by
  unfold nextHint
  rw [String.data_append, String.data_append, List.append_assoc]
  rfl

lemma prevHint_take_one (c : Nat) : (prevHint c).data.take 1 = ['📄'] := by
  unfold prevHint
  rw [String.data_append, String.data_append, List.append_assoc]
  rfl

lemma titleLine_take_one (s : String) : ("📚 " ++ s).data.take 1 = ['📚'] := by
  rw [String.data_append]
  rfl

lemma authorLine_take_one (s : String) : ("✍️  By " ++ s).data.take 1 = ['✍'] := by
  rw [String.data_append]
  rfl

lemma sepLine_take_one (w : Nat) :
    (sepLine w).data.take 1 = if w = 0 then [] else ['='] := by
  cases w with
  | zero => rfl
  | succ n =>
    rw [show (sepLine (n + 1)).data = '=' :: List.replicate n '=' from by
      simp [sepLine, List.replicate_succ]]
    simp

lemma chapterLine_ne_sep (c t w : Nat) : chapterLine c t ≠ sepLine w := by
  refine ne_of_data_take_one _ _ ?_
  rw [chapterLine_take_one, sepLine_take_one]
  split <;> simp

lemma chapterLine_ne_title (c t : Nat) (s : String) :
    chapterLine c t ≠ "📚 " ++ s := by
  refine ne_of_data_take_one _ _ ?_
  rw [chapterLine_take_one, titleLine_take_one]
  simp

lemma chapterLine_ne_author (c t : Nat) (s : String) :
    chapterLine c t ≠ "✍️  By " ++ s := by
  refine ne_of_data_take_one _ _ ?_
  rw [chapterLine_take_one, authorLine_take_one]
  simp

lemma chapterLine_ne_empty (c t : Nat) : chapterLine c t ≠ "" := by
  refine ne_of_data_take_one _ _ ?_
  rw [chapterLine_take_one]
  simp

lemma nextHint_ne_sep (c w : Nat) : nextHint c ≠ sepLine w := by
  refine ne_of_data_take_one _ _ ?_
  rw [nextHint_take_one, sepLine_take_one]
  split <;> simp

lemma nextHint_ne_empty (c : Nat) : nextHint c ≠ "" := by
  refine ne_of_data_take_one _ _ ?_
  rw [nextHint_take_one]
  simp

lemma prevHint_ne_sep (c w : Nat) : prevHint c ≠ sepLine w := by
  refine ne_of_data_take_one _ _ ?_
  rw [prevHint_take_one, sepLine_take_one]
  split <;> simp

lemma prevHint_ne_empty (c : Nat) : prevHint c ≠ "" := by
  refine ne_of_data_take_one _ _ ?_
  rw [prevHint_take_one]
  simp

lemma nextHint_rev_take (c : Nat) :
    (nextHint c).data.reverse.take 9 =
      ['r', 'e', 't', 'p', 'a', 'h', 'c', ' ', 't'] := by
  unfold nextHint
  rw [String.data_append, String.data_append, List.reverse_append,
    List.take_append_eq_append_take]
  norm_num

lemma prevHint_rev_take (c : Nat) :
    (prevHint c).data.reverse.take 9 =
      ['r', 'e', 't', 'p', 'a', 'h', 'c', ' ', 's'] := by
  unfold prevHint
  rw [String.data_append, String.data_append, List.reverse_append,
    List.take_append_eq_append_take]
  norm_num

lemma nextHint_ne_prevHint (c c' : Nat) : nextHint c ≠ prevHint c' := by
  intro h
  have h1 : (nextHint c).data.reverse.take 9 = (prevHint c').data.reverse.take 9 := by
    rw [h]
  rw [nextHint_rev_take, prevHint_rev_take] at h1
  simp at h1

lemma prevHint_ne_nextHint (c c' : Nat) : prevHint c ≠ nextHint c' :=
  (nextHint_ne_prevHint c' c).symm

/-- C6: the header carries the "Chapter i of N" line exactly when `N > 1`;
the footer carries the next-chapter hint exactly when `N > 1` and `i < N`,
and the previous-chapter hint exactly when `N > 1` and `i > 1`; for `N = 3`,
`i = 2` both hints appear, `i = 1` omits only the previous hint, and `i = 3`
omits only the next hint. -/
theorem chapter_nav_hints :
    (∀ (w : Nat) (title author : String) (chapter total : Nat),
        (chapterLine chapter total ∈ headerLines w title author chapter total ↔
          1 < total) ∧
        (nextHint chapter ∈ footerLines w chapter total ↔
          1 < total ∧ chapter < total) ∧
        (prevHint chapter ∈ footerLines w chapter total ↔
          1 < total ∧ 1 < chapter)) ∧
    (nextHint 2 ∈ footerLines 80 2 3 ∧ prevHint 2 ∈ footerLines 80 2 3) ∧
    (nextHint 1 ∈ footerLines 80 1 3 ∧ prevHint 1 ∉ footerLines 80 1 3) ∧
    (nextHint 3 ∉ footerLines 80 3 3 ∧ prevHint 3 ∈ footerLines 80 3 3) := by
  refine ⟨?_, by decide, by decide, by decide⟩
  intro w title author chapter total
  refine ⟨?_, ?_, ?_⟩
  · unfold headerLines
    by_cases h : 1 < total
    · simp [h]
    · simp [h, chapterLine_ne_sep, chapterLine_ne_title, chapterLine_ne_author,
        chapterLine_ne_empty]
  · unfold footerLines
    by_cases h : 1 < total
    · by_cases h2 : chapter < total
      · simp [h, h2]
      · by_cases h3 : 1 < chapter <;>
          simp [h, h2, h3, nextHint_ne_empty, nextHint_ne_sep, nextHint_ne_prevHint]
    · simp [h]
  · unfold footerLines
    by_cases h : 1 < total
    · by_cases h3 : 1 < chapter
      · simp [h, h3]
      · by_cases h2 : chapter < total <;>
          simp [h, h2, h3, prevHint_ne_empty, prevHint_ne_sep, prevHint_ne_nextHint]
    · simp [h]
